import Mathlib

/-!
Shallow embedding of the configuration-language parser in src/dz3.py.

Conventions of the embedding:
* Python strings are Lean `String`, manipulated through their `data : List Char`.
* Python `int` is `Int`; Python `float` is modelled as an exact rational
  (`Rat`), which agrees with IEEE doubles on every value appearing in the
  claims (small dyadic and decimal quantities); Python `str` is `String`.
* The Python regular expressions of the source are embedded as explicit
  backtracking matchers with the exact `re.match` semantics (prefix match,
  greedy quantifiers with backtracking).  The source only ever feeds the
  evaluator newline-free strings (the input is split into lines, and line
  48-58 replaces embedded newlines by spaces), so the matchers need not
  distinguish the dot-does-not-match-newline rule.
* Exceptions are modelled by `Except PyErr`.  `PyErr.recursionError` stands
  for the interpreter recursion limit and is produced only when the fuel of
  the expression evaluator runs out, which cannot happen for the fuel chosen
  by `evaluateExpression`.
-/

/-- ASCII whitespace as recognised by Python `str.strip` and the regex
class backslash-s (the rarely used Unicode whitespace is not modelled). -/
def isPyWS (c : Char) : Bool :=
  c.toNat = 32 || c.toNat = 9 || c.toNat = 10 || c.toNat = 13 || c.toNat = 11 || c.toNat = 12

/-- ASCII decimal digit, the class backslash-d of the source regexes and the
characters accepted by `str.isdigit` (Unicode digits are not modelled). -/
def isDigitC (c : Char) : Bool := 48 ≤ c.toNat && c.toNat ≤ 57

/-- First character of an identifier: the regex class of lowercase and
uppercase ASCII letters and underscore. -/
def isIdentStart (c : Char) : Bool :=
  (97 ≤ c.toNat && c.toNat ≤ 122) || (65 ≤ c.toNat && c.toNat ≤ 90) || c.toNat = 95

/-- Continuation character of an identifier: letters, digits, underscore. -/
def isWordC (c : Char) : Bool := isIdentStart c || isDigitC c

/-- `listStartsWith p l` is true when `p` is a prefix of `l`. -/
def listStartsWith : List Char → List Char → Bool
  | [], _ => true
  | _ :: _, [] => false
  | p :: ps, c :: cs => p = c && listStartsWith ps cs

/-- Python `s.startswith(pre)`. -/
def pyStartsWith (pre s : String) : Bool := listStartsWith pre.data s.data

/-- Python `s.endswith(suf)`. -/
def pyEndsWith (suf s : String) : Bool :=
  listStartsWith suf.data.reverse s.data.reverse

/-- Python `s.strip()`: remove whitespace from both ends. -/
def pyStrip (s : String) : String :=
  String.mk (((s.data.dropWhile isPyWS).reverse.dropWhile isPyWS).reverse)

/-- Numeric value of a list of decimal digits, as read by Python `int`. -/
def digitsToNat (cs : List Char) : Nat :=
  cs.foldl (fun a c => a * 10 + (c.toNat - 48)) 0

/-- Python `s.isdigit()`: nonempty and all digits. -/
def pyIsDigit (s : String) : Bool := !s.data.isEmpty && s.data.all isDigitC

/-- Python `int(s)` for a decimal string: optional surrounding whitespace,
optional sign, then at least one digit; `none` models the `ValueError` the
conversion raises otherwise. -/
def pyIntOfString (s : String) : Option Int :=
  let t := ((s.data.dropWhile isPyWS).reverse.dropWhile isPyWS).reverse
  match t with
  | '+' :: ds => if !ds.isEmpty && ds.all isDigitC then some (digitsToNat ds) else none
  | '-' :: ds => if !ds.isEmpty && ds.all isDigitC then some (-(digitsToNat ds : Int)) else none
  | ds => if !ds.isEmpty && ds.all isDigitC then some (digitsToNat ds) else none

/-- Python runtime values reachable in this program: integers, floats
(modelled exactly as rationals) and strings. -/
inductive PyVal where
  | int : Int → PyVal
  | float : Rat → PyVal
  | str : String → PyVal
deriving DecidableEq

/-- The exceptions the source can raise: its own `SyntaxError` class, and
the builtin `ValueError`, `TypeError`, `ZeroDivisionError` (plus the
interpreter recursion limit, unreachable for the fuel used here). -/
inductive PyErr where
  | syntaxError : String → PyErr
  | valueError : String → PyErr
  | typeError : String → PyErr
  | zeroDivisionError : PyErr
  | recursionError : PyErr
deriving DecidableEq

instance {ε α : Type} [DecidableEq ε] [DecidableEq α] : DecidableEq (Except ε α) := fun a b =>
  match a, b with
  | .ok x, .ok y =>
    if h : x = y then .isTrue (by rw [h]) else .isFalse (fun hh => h (Except.ok.inj hh))
  | .error x, .error y =>
    if h : x = y then .isTrue (by rw [h]) else .isFalse (fun hh => h (Except.error.inj hh))
  | .ok _, .error _ => .isFalse (fun hh => Except.noConfusion hh)
  | .error _, .ok _ => .isFalse (fun hh => Except.noConfusion hh)

/-- Rational addition written on numerators and denominators, so that the
kernel can evaluate it (`Rat.add` itself does not reduce); proved equal to
`+` in `qAdd_eq`. -/
def qAdd (a b : Rat) : Rat :=
  Rat.divInt (a.num * b.den + b.num * a.den) (a.den * b.den)

/-- Kernel-computable rational subtraction; proved equal to `-` in `qSub_eq`. -/
def qSub (a b : Rat) : Rat :=
  Rat.divInt (a.num * b.den - b.num * a.den) (a.den * b.den)

/-- Kernel-computable rational multiplication; proved equal to `*` in `qMul_eq`. -/
def qMul (a b : Rat) : Rat :=
  Rat.divInt (a.num * b.num) (a.den * b.den)

/-- Kernel-computable rational division; proved equal to `/` in `qDiv_eq`. -/
def qDiv (a b : Rat) : Rat :=
  Rat.divInt (a.num * b.den) (a.den * b.num)

/-- Python `+` on the values of this program: integer addition, float
addition with int promotion, string concatenation; any other combination
raises `TypeError`. -/
def pyAdd : PyVal → PyVal → Except PyErr PyVal
  | .int a, .int b => .ok (.int (a + b))
  | .int a, .float q => .ok (.float (qAdd (a : Rat) q))
  | .float p, .int b => .ok (.float (qAdd p (b : Rat)))
  | .float p, .float q => .ok (.float (qAdd p q))
  | .str s, .str t => .ok (.str (s ++ t))
  | _, _ => .error (.typeError "unsupported operand type(s) for +")

/-- Python `-` on these values: numeric only. -/
def pySub : PyVal → PyVal → Except PyErr PyVal
  | .int a, .int b => .ok (.int (a - b))
  | .int a, .float q => .ok (.float (qSub (a : Rat) q))
  | .float p, .int b => .ok (.float (qSub p (b : Rat)))
  | .float p, .float q => .ok (.float (qSub p q))
  | _, _ => .error (.typeError "unsupported operand type(s) for -")

/-- Repetition of a string, for Python `str * int`. -/
def repeatStr (s : String) : Nat → String
  | 0 => ""
  | n + 1 => s ++ repeatStr s n

/-- Python `*` on these values: numeric multiplication, or string
repetition when one operand is a string and the other an int. -/
def pyMul : PyVal → PyVal → Except PyErr PyVal
  | .int a, .int b => .ok (.int (a * b))
  | .int a, .float q => .ok (.float (qMul (a : Rat) q))
  | .float p, .int b => .ok (.float (qMul p (b : Rat)))
  | .float p, .float q => .ok (.float (qMul p q))
  | .str s, .int n => .ok (.str (repeatStr s n.toNat))
  | .int n, .str s => .ok (.str (repeatStr s n.toNat))
  | _, _ => .error (.typeError "unsupported operand type(s) for *")

/-- Python `/` on these values: true division, always producing a float;
a zero divisor raises `ZeroDivisionError`, a string operand `TypeError`. -/
def pyDiv : PyVal → PyVal → Except PyErr PyVal
  | .int a, .int b =>
    if b = 0 then .error .zeroDivisionError else .ok (.float (qDiv (a : Rat) (b : Rat)))
  | .int a, .float q =>
    if q = 0 then .error .zeroDivisionError else .ok (.float (qDiv (a : Rat) q))
  | .float p, .int b =>
    if b = 0 then .error .zeroDivisionError else .ok (.float (qDiv p (b : Rat)))
  | .float p, .float q =>
    if q = 0 then .error .zeroDivisionError else .ok (.float (qDiv p q))
  | _, _ => .error (.typeError "unsupported operand type(s) for /")

/-- Python unary minus: numeric negation, `TypeError` on strings. -/
def pyNeg : PyVal → Except PyErr PyVal
  | .int a => .ok (.int (-a))
  | .float q => .ok (.float (-q))
  | .str _ => .error (.typeError "bad operand type for unary -")

/-- Python `chr(n)`: the one-character string with code point `n`, or
`ValueError` out of range.  (Lean `Char` cannot hold surrogate code points;
no claim involves them.) -/
def pyChr (n : Int) : Except PyErr PyVal :=
  if 0 ≤ n && n < 1114112 then .ok (.str (String.mk [Char.ofNat n.toNat]))
  else .error (.valueError "chr() arg not in range(0x110000)")

/-- The four operator characters of the regex class in lines 72 and 91. -/
def isOpChar (c : Char) : Bool := c = '+' || c = '-' || c = '*' || c = '/'

/-- Index of the last occurrence of `target` in the list, starting the
count at `i`; used for the greedy backtracking of a trailing literal after
a greedy group. -/
def lastIdxAux (target : Char) : List Char → Nat → Option Nat
  | [], _ => none
  | c :: cs, i =>
    match lastIdxAux target cs (i + 1) with
    | some j => some j
    | none => if c = target then some i else none

/-- Search for the second greedy non-whitespace group of the binary-form
regex: the largest length `d` (tried from the fuel downwards) such that the
character right after the `d` chosen characters is a literal closing
parenthesis. -/
def srSecond (u1 : List Char) : Nat → Option (List Char)
  | 0 => none
  | d + 1 => if u1.get? (d + 1) = some ')' then some (u1.take (d + 1)) else srSecond u1 d

/-- Search for the first greedy non-whitespace group of the binary-form
regex, trying lengths from the fuel downwards, each followed by optional
whitespace, the second group and the closing parenthesis. -/
def sLeft (t1 : List Char) : Nat → Option (List Char × List Char)
  | 0 => none
  | b + 1 =>
    let u1 := (t1.drop (b + 1)).dropWhile isPyWS
    let m2 := (u1.takeWhile (fun ch => !isPyWS ch)).length
    match srSecond u1 m2 with
    | some g2 => some (t1.take (b + 1), g2)
    | none => sLeft t1 b

/-- `re.match` of the binary-form regex of line 72 of the source,
hash, open paren, operator class, optional whitespace, two greedy
nonempty non-whitespace groups separated by optional whitespace, and a
closing paren; trailing text is ignored (prefix match).  Returns the
operator and the two captured groups. -/
def matchBinary (cs : List Char) : Option (Char × String × String) :=
  match cs with
  | '#' :: '(' :: op :: rest =>
    if isOpChar op then
      let t1 := rest.dropWhile isPyWS
      let m1 := (t1.takeWhile (fun ch => !isPyWS ch)).length
      match sLeft t1 m1 with
      | some (g1, g2) => some (op, String.mk g1, String.mk g2)
      | none => none
    else none
  | _ => none

/-- `re.match` of the unary-form regex of line 91 of the source: hash, open
paren, operator class, optional whitespace, one greedy nonempty group of
arbitrary characters, and a closing paren; the greedy group reaches to the
last closing paren of the string, and the optional whitespace backtracks
when everything up to that paren is whitespace.  Returns the operator and
the captured inner expression. -/
def matchUnary (cs : List Char) : Option (Char × String) :=
  match cs with
  | '#' :: '(' :: op :: t =>
    if isOpChar op then
      match lastIdxAux ')' t 0 with
      | some p =>
        if 1 ≤ p then
          let k := min ((t.takeWhile isPyWS).length) (p - 1)
          some (op, String.mk ((t.drop k).take (p - k)))
        else none
      | none => none
    else none
  | _ => none

/-- The constant table of the parser: a Python dict from names to values. -/
abbrev Consts := List (String × PyVal)

/-- The body of one configuration block: a dict from keys to values. -/
abbrev Block := List (String × PyVal)

/-- The output document: a dict from generated block names to block bodies. -/
abbrev Doc := List (String × Block)

/-- Assignment into a Python dict: overwrite the value in place when the
key is present, append a new binding otherwise. -/
def updateAssoc {α : Type} : List (String × α) → String → α → List (String × α)
  | [], k, v => [(k, v)]
  | (k1, v1) :: rest, k, v =>
    if k1 = k then (k, v) :: rest else (k1, v1) :: updateAssoc rest k v

/-- Lookup in a Python dict. -/
def lookupAssoc {α : Type} : List (String × α) → String → Option α
  | [], _ => none
  | (k1, v1) :: rest, k => if k1 = k then some v1 else lookupAssoc rest k

/-- `_get_value_from_expression` of the source (lines 111-117): a binary
operand resolves as a digit literal or as a known constant, anything else
raises the `SyntaxError` of line 117. -/
def getValueFromExpression (c : Consts) (value : String) : Except PyErr PyVal :=
  if pyIsDigit value then .ok (.int (digitsToNat value.data))
  else
    match lookupAssoc c value with
    | some v => .ok v
    | none => .error (.syntaxError ("Unknown variable or value: " ++ value))

/-- Dispatch on the operator of the binary form (lines 80-89). -/
def applyBinOp (op : Char) (l r : PyVal) : Except PyErr PyVal :=
  if op = '+' then pyAdd l r
  else if op = '-' then pySub l r
  else if op = '*' then pyMul l r
  else if op = '/' then pyDiv l r
  else .error (.syntaxError ("Unsupported operation: " ++ String.mk [op]))

/-- Dispatch on the operator of the unary form (lines 95-104): plus and
star return the value unchanged, minus negates, slash takes `1 / x`. -/
def applyUnOp (op : Char) (x : PyVal) : Except PyErr PyVal :=
  if op = '+' then .ok x
  else if op = '-' then pyNeg x
  else if op = '*' then .ok x
  else if op = '/' then pyDiv (.int 1) x
  else .error (.syntaxError ("Unsupported operation: " ++ String.mk [op]))

/-- `_evaluate_expression` of the source (lines 62-106), with explicit
fuel for the recursion of the unary branch: digit literal, `chr(...)`,
binary form, unary form, in that order, else the `SyntaxError` of
line 106. -/
def evalExpr : Nat → Consts → String → Except PyErr PyVal
  | 0, _, _ => .error .recursionError
  | fuel + 1, c, expr =>
    if pyIsDigit expr then .ok (.int (digitsToNat expr.data))
    else if pyStartsWith "chr(" expr && pyEndsWith ")" expr then
      match pyIntOfString (String.mk ((expr.data.drop 4).dropLast)) with
      | some n => pyChr n
      | none =>
        .error (.valueError ("invalid literal for int() with base 10: " ++
          String.mk ((expr.data.drop 4).dropLast)))
    else
      match matchBinary expr.data with
      | some (op, l, r) =>
        match getValueFromExpression c l with
        | .error e => .error e
        | .ok lv =>
          match getValueFromExpression c r with
          | .error e => .error e
          | .ok rv => applyBinOp op lv rv
      | none =>
        match matchUnary expr.data with
        | some (op, inner) =>
          match evalExpr fuel c inner with
          | .error e => .error e
          | .ok x => applyUnOp op x
        | none => .error (.syntaxError ("Invalid expression: " ++ expr))

/-- The evaluator with enough fuel: each recursive call strips at least the
leading hash, paren, operator and the trailing paren, so a fuel one larger
than the length of the string can never run out. -/
def evaluateExpression (c : Consts) (expr : String) : Except PyErr PyVal :=
  evalExpr (expr.data.length + 1) c expr

/-- Shape test of the float regex of line 137 of the source: one or more
digits, a dot, one or more digits, anchored at both ends. -/
def floatShape (cs : List Char) : Bool :=
  let a := cs.takeWhile isDigitC
  match cs.dropWhile isDigitC with
  | '.' :: b => !a.isEmpty && !b.isEmpty && b.all isDigitC
  | _ => false

/-- Exact value of a decimal float literal, integer part and fractional
part over a power of ten (IEEE rounding is not modelled; every float
appearing in the claims is exactly representable). -/
def floatVal (cs : List Char) : Rat :=
  let a := cs.takeWhile isDigitC
  match cs.dropWhile isDigitC with
  | '.' :: b => Rat.divInt (digitsToNat (a ++ b)) ((10 : Int) ^ b.length)
  | _ => 0

/-- `_parse_value` of the source (lines 133-143): digit literal, float
literal, double-bracketed string with the brackets stripped, known
constant, else the `SyntaxError` of line 143. -/
def parseValue (c : Consts) (value : String) : Except PyErr PyVal :=
  if pyIsDigit value then .ok (.int (digitsToNat value.data))
  else if floatShape value.data then .ok (.float (floatVal value.data))
  else if pyStartsWith "[[" value && pyEndsWith "]]" value then
    .ok (.str (String.mk ((value.data.drop 2).dropLast.dropLast)))
  else
    match lookupAssoc c value with
    | some v => .ok v
    | none => .error (.syntaxError ("Invalid value: " ++ value))

/-- `re.match` of the key-value regex of line 123 of the source: an
identifier, a single space, an equals sign, a single space, a greedy
nonempty group, and a semicolon; the greedy group reaches to the last
semicolon of the line and any trailing text is ignored (prefix match). -/
def kvMatch (cs : List Char) : Option (List Char × List Char) :=
  match cs.takeWhile isWordC with
  | [] => none
  | c0 :: cs0 =>
    if isIdentStart c0 then
      match cs.dropWhile isWordC with
      | ' ' :: '=' :: ' ' :: rest =>
        match lastIdxAux ';' rest 0 with
        | some p => if 1 ≤ p then some (c0 :: cs0, rest.take p) else none
        | none => none
      | _ => none
    else none

/-- `_parse_key_value` of the source (lines 121-129): match the key-value
regex, then resolve the value part, else the `SyntaxError` of line 125. -/
def parseKeyValue (c : Consts) (line : String) : Except PyErr (String × PyVal) :=
  match kvMatch line.data with
  | some (k, v) =>
    match parseValue c (String.mk v) with
    | .ok val => .ok (String.mk k, val)
    | .error e => .error e
  | none => .error (.syntaxError ("Invalid key-value pair: " ++ line))

/-- `re.match` of the constant-declaration regex of line 51 of the source:
the literal word def, whitespace, an identifier, optional whitespace, the
literal colon-equals, optional whitespace, then a greedy nonempty group
reaching the end of the line (when everything after the colon-equals is
whitespace, the optional whitespace backtracks to leave one character for
the group). -/
def constMatch (cs : List Char) : Option (List Char × List Char) :=
  match cs with
  | 'd' :: 'e' :: 'f' :: rest =>
    if (rest.takeWhile isPyWS).isEmpty then none
    else
      let r1 := rest.dropWhile isPyWS
      match r1.takeWhile isWordC with
      | [] => none
      | c0 :: cs0 =>
        if isIdentStart c0 then
          match (r1.dropWhile isWordC).dropWhile isPyWS with
          | ':' :: '=' :: r2 =>
            if r2.isEmpty then none
            else
              let k := min ((r2.takeWhile isPyWS).length) (r2.length - 1)
              some (c0 :: cs0, r2.drop k)
          | _ => none
        else none
  | _ => none

/-- `_parse_constant` of the source (lines 49-58): match the declaration
regex, replace newlines in the captured expression by spaces, strip it,
evaluate it and store the result under the identifier. -/
def parseConstant (c : Consts) (line : String) : Except PyErr Consts :=
  match constMatch line.data with
  | some (name, ve) =>
    let ve2 := pyStrip (String.mk (ve.map (fun ch => if ch = '\n' then ' ' else ch)))
    match evaluateExpression c ve2 with
    | .ok v => .ok (updateAssoc c (String.mk name) v)
    | .error e => .error e
  | none => .error (.syntaxError ("Invalid constant definition: " ++ line))

/-- The probed names dict1, dict2, dict3 and so on. -/
def dictName (i : Nat) : String := "dict" ++ toString i

/-- The linear probe of `_generate_dict_name` (lines 147-151), with fuel;
when the fuel runs out the current candidate is returned unchecked, which
cannot happen for the fuel chosen by `generateDictName`, since at most
`length` distinct probed names can collide with existing keys. -/
def probeName (pd : Doc) : Nat → Nat → String
  | 0, i => dictName i
  | fuel + 1, i =>
    if pd.any (fun kv => kv.1 = dictName i) then probeName pd fuel (i + 1) else dictName i

/-- `_generate_dict_name` of the source: probe dict1, dict2, and so on,
until a name not already present in the document is found. -/
def generateDictName (pd : Doc) : String := probeName pd (pd.length + 1) 1

/-- One iteration of the line loop of `parse` (lines 24-43): strip the
line; skip blanks and comments; dispatch constant declarations; open a
block, refusing nesting; close an open block under a generated name; parse
a key-value pair inside an open block; anything else is the unexpected
line error. -/
def processLine (c : Consts) (pd : Doc) (cur : Option Block) (rawLine : String) :
    Except PyErr (Consts × Doc × Option Block) :=
  let s := pyStrip rawLine
  if s.data.isEmpty || pyStartsWith "#" s then .ok (c, pd, cur)
  else if pyStartsWith "def " s then
    match parseConstant c s with
    | .ok c2 => .ok (c2, pd, cur)
    | .error e => .error e
  else if pyStartsWith "@\x7b" s then
    match cur with
    | some _ => .error (.syntaxError "Nested dictionaries are not allowed.")
    | none => .ok (c, pd, some [])
  else if pyStartsWith "\x7d" s then
    match cur with
    | some b => .ok (c, updateAssoc pd (generateDictName pd) b, none)
    | none => .error (.syntaxError ("Unexpected line: " ++ s))
  else
    match cur with
    | some b =>
      match parseKeyValue c s with
      | .ok kv => .ok (c, pd, some (updateAssoc b kv.1 kv.2))
      | .error e => .error e
    | none => .error (.syntaxError ("Unexpected line: " ++ s))

/-- The line loop of `parse`, threading the constant table, the document
and the optionally open block. -/
def parseLines : List String → Consts → Doc → Option Block →
    Except PyErr (Consts × Doc × Option Block)
  | [], c, pd, cur => .ok (c, pd, cur)
  | l :: ls, c, pd, cur =>
    match processLine c pd cur l with
    | .ok (c2, pd2, cur2) => parseLines ls c2 pd2 cur2
    | .error e => .error e

/-- `parse` of the source (lines 19-45) on the list of lines produced by
`input_text.strip().splitlines()`: run the line loop from an empty
constant table, an empty document and no open block, and return the
document, silently discarding a still-open block. -/
def parse (lines : List String) : Except PyErr Doc :=
  match parseLines lines [] [] none with
  | .ok (_, pd, _) => .ok pd
  | .error e => .error e

/-! Helper lemmas about the character classes, list scanning and the dict
operations, used by the claim theorems below. -/

theorem digitC_word {c : Char} (h : isDigitC c = true) : isWordC c = true := by
  unfold isWordC
  rw [h, Bool.or_true]

theorem wordC_not_ws {c : Char} (h : isWordC c = true) : isPyWS c = false := by
  unfold isWordC isIdentStart isDigitC at h
  unfold isPyWS
  simp only [Bool.or_eq_true, Bool.and_eq_true, decide_eq_true_eq] at h
  simp only [Bool.or_eq_false_iff, decide_eq_false_iff_not]
  omega

theorem digitC_not_ws {c : Char} (h : isDigitC c = true) : isPyWS c = false :=
  wordC_not_ws (digitC_word h)

theorem identStart_word {c : Char} (h : isIdentStart c = true) : isWordC c = true := by
  unfold isWordC
  rw [h, Bool.true_or]

theorem identStart_not_digit {c : Char} (h : isIdentStart c = true) : isDigitC c = false := by
  unfold isIdentStart at h
  unfold isDigitC
  simp only [Bool.or_eq_true, Bool.and_eq_true, decide_eq_true_eq] at h
  simp only [Bool.and_eq_false_iff, decide_eq_false_iff_not]
  omega

theorem identStart_toNat {c : Char} (h : isIdentStart c = true) :
    ((97 ≤ c.toNat ∧ c.toNat ≤ 122) ∨ (65 ≤ c.toNat ∧ c.toNat ≤ 90)) ∨ c.toNat = 95 := by
  unfold isIdentStart at h
  simpa only [Bool.or_eq_true, Bool.and_eq_true, decide_eq_true_eq] using h

theorem takeWhile_cons_neg {p : Char → Bool} {c : Char} (cs : List Char) (h : p c = false) :
    List.takeWhile p (c :: cs) = [] := by
  simp [List.takeWhile, h]

theorem dropWhile_cons_neg {p : Char → Bool} {c : Char} (cs : List Char) (h : p c = false) :
    List.dropWhile p (c :: cs) = c :: cs := by
  simp [List.dropWhile, h]

theorem takeWhile_cons_pos {p : Char → Bool} {c : Char} (cs : List Char) (h : p c = true) :
    List.takeWhile p (c :: cs) = c :: List.takeWhile p cs := by
  simp [List.takeWhile, h]

theorem dropWhile_cons_pos {p : Char → Bool} {c : Char} (cs : List Char) (h : p c = true) :
    List.dropWhile p (c :: cs) = List.dropWhile p cs := by
  simp [List.dropWhile, h]

theorem takeWhile_append_all {p : Char → Bool} :
    ∀ {l : List Char} (r : List Char), (∀ x ∈ l, p x = true) →
      List.takeWhile p (l ++ r) = l ++ List.takeWhile p r := by
  intro l
  induction l with
  | nil => intro r _; rfl
  | cons c cs ih =>
    intro r h
    rw [List.cons_append, takeWhile_cons_pos _ (h c (by simp)), ih r (fun x hx => h x (by simp [hx]))]
    rfl

theorem dropWhile_append_all {p : Char → Bool} :
    ∀ {l : List Char} (r : List Char), (∀ x ∈ l, p x = true) →
      List.dropWhile p (l ++ r) = List.dropWhile p r := by
  intro l
  induction l with
  | nil => intro r _; rfl
  | cons c cs ih =>
    intro r h
    rw [List.cons_append, dropWhile_cons_pos _ (h c (by simp)), ih r (fun x hx => h x (by simp [hx]))]

theorem takeWhile_all_pos {p : Char → Bool} :
    ∀ {l : List Char}, (∀ x ∈ l, p x = true) → List.takeWhile p l = l := by
  intro l
  induction l with
  | nil => intro _; rfl
  | cons c cs ih =>
    intro h
    rw [takeWhile_cons_pos _ (h c (by simp)), ih (fun x hx => h x (by simp [hx]))]

theorem dropWhile_all_neg {p : Char → Bool} :
    ∀ {l : List Char}, (∀ x ∈ l, p x = false) → List.dropWhile p l = l := by
  intro l
  induction l with
  | nil => intro _; rfl
  | cons c cs ih =>
    intro h
    exact dropWhile_cons_neg _ (h c (by simp))

theorem lookup_update_self {α : Type} (l : List (String × α)) (k : String) (v : α) :
    lookupAssoc (updateAssoc l k v) k = some v := by
  induction l with
  | nil => simp [updateAssoc, lookupAssoc]
  | cons kv rest ih =>
    by_cases h : kv.1 = k
    · simp [updateAssoc, h, lookupAssoc]
    · simp only [updateAssoc]
      rw [if_neg h]
      simp only [lookupAssoc]
      rw [if_neg h]
      exact ih

theorem lookup_update_ne {α : Type} (l : List (String × α)) (k k2 : String) (v : α)
    (h : k2 ≠ k) : lookupAssoc (updateAssoc l k v) k2 = lookupAssoc l k2 := by
  induction l with
  | nil =>
    simp only [updateAssoc, lookupAssoc]
    rw [if_neg (fun e => h e.symm)]
  | cons kv rest ih =>
    by_cases hk : kv.1 = k
    · simp only [updateAssoc]
      rw [if_pos hk]
      simp only [lookupAssoc]
      rw [if_neg (fun e => h e.symm), if_neg (by rw [hk]; exact fun e => h e.symm)]
    · simp only [updateAssoc]
      rw [if_neg hk]
      simp only [lookupAssoc]
      by_cases h2 : kv.1 = k2
      · rw [if_pos h2, if_pos h2]
      · rw [if_neg h2, if_neg h2]
        exact ih

theorem qAdd_eq (a b : Rat) : qAdd a b = a + b := by
  have ha : ((a.den : Int)) ≠ 0 := by exact_mod_cast a.den_nz
  have hb : ((b.den : Int)) ≠ 0 := by exact_mod_cast b.den_nz
  conv_rhs => rw [← Rat.num_divInt_den a, ← Rat.num_divInt_den b]
  rw [Rat.divInt_add_divInt _ _ ha hb]
  rfl

theorem qSub_eq (a b : Rat) : qSub a b = a - b := by
  have ha : ((a.den : Int)) ≠ 0 := by exact_mod_cast a.den_nz
  have hb : ((b.den : Int)) ≠ 0 := by exact_mod_cast b.den_nz
  conv_rhs => rw [← Rat.num_divInt_den a, ← Rat.num_divInt_den b]
  rw [Rat.divInt_sub_divInt _ _ ha hb]
  rfl

theorem qMul_eq (a b : Rat) : qMul a b = a * b := by
  conv_rhs => rw [← Rat.num_divInt_den a, ← Rat.num_divInt_den b]
  rw [Rat.divInt_mul_divInt']
  rfl

theorem qDiv_eq (a b : Rat) : qDiv a b = a / b := by
  conv_rhs => rw [← Rat.num_divInt_den a, ← Rat.num_divInt_den b]
  rw [Rat.divInt_div_divInt]
  rfl

/-! Claim theorems. -/

/-- C9: binary division in the expression evaluator is true division: on
integer operands it yields the exact rational (floating-point) quotient
and never a floor-divided integer; in particular the expression
hash-paren-slash-1-2-paren yields one half and not the integer zero. -/
theorem C9_binary_division_is_true_division :
    (∀ a b : Int, b ≠ 0 →
      pyDiv (.int a) (.int b) = .ok (.float ((a : Rat) / (b : Rat)))) ∧
    evaluateExpression [] "#(/ 1 2)" = .ok (.float ((1 : Rat) / 2)) ∧
    (∀ i : Int, PyVal.float ((1 : Rat) / 2) ≠ .int i) := by
  have hhalf : ((1 : Rat) / 2) = Rat.divInt 1 2 := by
    rw [Rat.divInt_eq_div]
    norm_num
  refine ⟨?_, ?_, ?_⟩
  · intro a b hb
    simp only [pyDiv, if_neg hb, qDiv_eq]
  · rw [hhalf]
    decide
  · intro i h
    cases h

/-- C9 witness: the general part of `C9_binary_division_is_true_division`
applied at the operands 1 and 2. -/
theorem C9_witness : pyDiv (.int 1) (.int 2) = .ok (.float ((1 : Rat) / 2)) := by
  have h := C9_binary_division_is_true_division.1 1 2 (by decide)
  simpa using h

/-- C10: both division branches of the evaluator are unguarded against a
zero divisor: the binary form with rvalue zero and the unary slash form
with inner value zero raise `ZeroDivisionError`, an error kind distinct
from the parser SyntaxError, so the evaluator is not total over its
accepted grammar. -/
theorem C10_division_by_zero_unguarded :
    evaluateExpression [] "#(/ 1 0)" = .error .zeroDivisionError ∧
    evaluateExpression [] "#(/ 0)" = .error .zeroDivisionError ∧
    (∀ a : Int, pyDiv (.int a) (.int 0) = .error .zeroDivisionError) ∧
    (∀ a : Int, pyDiv (.int a) (.float 0) = .error .zeroDivisionError) ∧
    (∀ q : Rat, pyDiv (.float q) (.int 0) = .error .zeroDivisionError) ∧
    (∀ q : Rat, pyDiv (.float q) (.float 0) = .error .zeroDivisionError) ∧
    (∀ m : String, PyErr.zeroDivisionError ≠ .syntaxError m) := by
  refine ⟨by decide, by decide, ?_, ?_, ?_, ?_, ?_⟩
  · intro a; simp [pyDiv]
  · intro a; simp [pyDiv]
  · intro q; simp [pyDiv]
  · intro q; simp [pyDiv]
  · intro m h; cases h

/-- C3 counterexample: a key-value line with extra text after the
terminating semicolon does not fail; the regex is a prefix match, so
`parse_key_value` accepts the line and silently ignores the trailing
text, contradicting the claim that any extra text after the semicolon
fails with SyntaxError. -/
theorem C3_counterexample : parseKeyValue [] "key = 1; junk" = .ok ("key", .int 1) := by
  decide

/-- C3 amended: the pattern identifier-space-equals-space-value-semicolon
with single spaces and the trailing semicolon is mandatory, and a missing
semicolon, a doubled equals sign or extra spaces around it fail with
SyntaxError; however the match is only a prefix match, so extra text
after the last semicolon on the line is ignored rather than rejected
(the captured value extends to the last semicolon). -/
theorem C3_amended_key_value_grammar :
    parseKeyValue [] "key = 1" = .error (.syntaxError "Invalid key-value pair: key = 1") ∧
    parseKeyValue [] "key == 1;" = .error (.syntaxError "Invalid key-value pair: key == 1;") ∧
    parseKeyValue [] "key  =  1;" = .error (.syntaxError "Invalid key-value pair: key  =  1;") ∧
    parseKeyValue [] "key =  1;" = .error (.syntaxError "Invalid value:  1") ∧
    parseKeyValue [] "key = 1;" = .ok ("key", .int 1) ∧
    parseKeyValue [] "key = 1; junk" = .ok ("key", .int 1) ∧
    (∀ (c : Consts) (line : String), kvMatch line.data = none →
      parseKeyValue c line = .error (.syntaxError ("Invalid key-value pair: " ++ line))) := by
  refine ⟨by decide, by decide, by decide, by decide, by decide, by decide, ?_⟩
  intro c line h
  simp only [parseKeyValue, h]

/-- C3 witness: the general no-match part of `C3_amended_key_value_grammar`
applied to a concrete malformed line. -/
theorem C3_witness :
    parseKeyValue [] "oops" = .error (.syntaxError "Invalid key-value pair: oops") := by
  exact C3_amended_key_value_grammar.2.2.2.2.2.2 [] "oops" (by decide)

/-- C4: the parser keeps at most one block open, enforced line by line: a
block-open line while a block is already open fails with the nested-block
error, and a non-blank non-comment line in the idle state that is neither
a constant declaration nor a block-open (for example a key-value line, or
a block-close with no open block) fails with the unexpected-line error. -/
theorem C4_single_open_block_invariant :
    (∀ (c : Consts) (pd : Doc) (b : Block) (line : String) (t : List Char),
      (pyStrip line).data = '@' :: '\x7b' :: t →
      processLine c pd (some b) line =
        .error (.syntaxError "Nested dictionaries are not allowed.")) ∧
    (∀ (c : Consts) (pd : Doc) (line : String),
      ((pyStrip line).data.isEmpty || pyStartsWith "#" (pyStrip line)) = false →
      pyStartsWith "def " (pyStrip line) = false →
      pyStartsWith "@\x7b" (pyStrip line) = false →
      processLine c pd none line =
        .error (.syntaxError ("Unexpected line: " ++ pyStrip line))) ∧
    parse ["key = 1;"] = .error (.syntaxError "Unexpected line: key = 1;") ∧
    parse ["@\x7b", "@\x7b"] = .error (.syntaxError "Nested dictionaries are not allowed.") ∧
    parse ["\x7d"] = .error (.syntaxError "Unexpected line: \x7d") := by
  refine ⟨?_, ?_, by decide, by decide, by decide⟩
  · intro c pd b line t hdata
    have h0 : (pyStrip line).data.isEmpty = false := by rw [hdata]; rfl
    have h1 : pyStartsWith "#" (pyStrip line) = false := by
      unfold pyStartsWith; rw [hdata]; rfl
    have h2 : pyStartsWith "def " (pyStrip line) = false := by
      unfold pyStartsWith; rw [hdata]; rfl
    have h3 : pyStartsWith "@\x7b" (pyStrip line) = true := by
      unfold pyStartsWith; rw [hdata]; rfl
    simp [processLine, h0, h1, h2, h3]
  · intro c pd line h0 h1 h2
    simp only [processLine, h0, h1, h2, Bool.false_eq_true, if_false]
    cases h3 : pyStartsWith "\x7d" (pyStrip line) <;> simp [h3]

/-- C4 witness: the two general parts of
`C4_single_open_block_invariant` applied to concrete lines. -/
theorem C4_witness :
    processLine [] [] (some []) "@\x7b" =
      .error (.syntaxError "Nested dictionaries are not allowed.") ∧
    processLine [] [] none "key = 1;" =
      .error (.syntaxError "Unexpected line: key = 1;") := by
  constructor
  · exact C4_single_open_block_invariant.1 [] [] [] "@\x7b" [] (by decide)
  · exact C4_single_open_block_invariant.2.1 [] [] "key = 1;" (by decide) (by decide) (by decide)

/-- C5: an input that ends while a block is still open parses without
error; the returned document is the one accumulated so far and the open
block with its key-value pairs is silently discarded. -/
theorem C5_unclosed_block_discarded :
    (∀ (lines : List String) (c2 : Consts) (pd2 : Doc) (b : Block),
      parseLines lines [] [] none = .ok (c2, pd2, some b) → parse lines = .ok pd2) ∧
    parseLines ["@\x7b", "a = 1;"] [] [] none = .ok ([], [], some [("a", .int 1)]) ∧
    parse ["@\x7b", "a = 1;"] = .ok [] := by
  refine ⟨?_, by rfl, by rfl⟩
  intro lines c2 pd2 b h
  unfold parse
  rw [h]

/-- C5 witness: the general part of `C5_unclosed_block_discarded` applied
to a concrete input ending inside a block. -/
theorem C5_witness : parse ["@\x7b", "a = 1;"] = .ok [] :=
  C5_unclosed_block_discarded.1 ["@\x7b", "a = 1;"] [] [] [("a", .int 1)] (by rfl)

/-- The linear probe of the name generator finds the first free index:
if every probed name from `start` up to `i` exclusive is occupied, name
`i` is free, and the fuel reaches `i`, the probe returns name `i`. -/
theorem probeName_spec (pd : Doc) :
    ∀ (fuel start i : Nat), start ≤ i → i < start + fuel →
      pd.any (fun kv => kv.1 = dictName i) = false →
      (∀ j, start ≤ j → j < i → pd.any (fun kv => kv.1 = dictName j) = true) →
      probeName pd fuel start = dictName i := by
  intro fuel
  induction fuel with
  | zero =>
    intro start i h1 h2 _ _
    exact absurd h2 (by omega)
  | succ fuel ih =>
    intro start i h1 h2 hfree hocc
    by_cases he : start = i
    · subst he
      unfold probeName
      rw [hfree]
      simp
    · have hlt : start < i := by omega
      unfold probeName
      rw [hocc start (Nat.le_refl _) hlt]
      simp only [if_true]
      exact ih (start + 1) i (by omega) (by omega) hfree (fun j hj1 hj2 => hocc j (by omega) hj2)

/-- C6: a closed block is inserted under the first unused name of the
sequence dict1, dict2, and so on, found by a linear probe from index 1;
one block yields the single entry dict1, and two sequential blocks yield
dict1 and dict2 in encounter order.  (The bound on `i` records that the
probe fuel suffices; it is implied by the other hypotheses because
distinct indices give distinct probed names.) -/
theorem C6_generated_names_linear_probe :
    (∀ (pd : Doc) (i : Nat), 1 ≤ i → i ≤ pd.length + 1 →
      pd.any (fun kv => kv.1 = dictName i) = false →
      (∀ j, 1 ≤ j → j < i → pd.any (fun kv => kv.1 = dictName j) = true) →
      generateDictName pd = dictName i) ∧
    dictName 1 = "dict1" ∧ dictName 2 = "dict2" ∧
    parse ["@\x7b", "key = 3;", "\x7d"] = .ok [("dict1", [("key", .int 3)])] ∧
    parse ["@\x7b", "a = 1;", "\x7d", "@\x7b", "b = 2;", "\x7d"] =
      .ok [("dict1", [("a", .int 1)]), ("dict2", [("b", .int 2)])] := by
  refine ⟨?_, by decide, by decide, by rfl, by rfl⟩
  intro pd i h1 h2 hfree hocc
  exact probeName_spec pd (pd.length + 1) 1 i h1 (by omega) hfree hocc

/-- C6 witness: the probe characterisation applied to a document already
holding dict1, giving dict2. -/
theorem C6_witness : generateDictName [("dict1", [])] = dictName 2 := by
  apply C6_generated_names_linear_probe.1 [("dict1", [])] 2 (by decide) (by decide) (by decide)
  intro j hj1 hj2
  have hj : j = 1 := by omega
  subst hj
  decide

/-- C7: a value token naming a known constant resolves to the value
stored at that moment of the parse: a declaration line changes only the
constant table, never the document built so far nor the open block, the
table update overwrites exactly the redeclared entry, and redeclaring a
constant after a block has closed leaves the earlier stored value in the
document unchanged. -/
theorem C7_constant_resolved_by_value :
    (∀ (c : Consts) (pd : Doc) (cur : Option Block) (line : String) (t : List Char),
      (pyStrip line).data = 'd' :: 'e' :: 'f' :: ' ' :: t →
      (∀ c2, parseConstant c (pyStrip line) = .ok c2 →
        processLine c pd cur line = .ok (c2, pd, cur)) ∧
      (∀ e, parseConstant c (pyStrip line) = .error e →
        processLine c pd cur line = .error e)) ∧
    (∀ (c : Consts) (n : String) (v : PyVal),
      lookupAssoc (updateAssoc c n v) n = some v) ∧
    (∀ (c : Consts) (n k : String) (v : PyVal), k ≠ n →
      lookupAssoc (updateAssoc c n v) k = lookupAssoc c k) ∧
    parse ["def x := 1", "@\x7b", "a = x;", "\x7d", "def x := 2", "@\x7b", "b = x;", "\x7d"] =
      .ok [("dict1", [("a", .int 1)]), ("dict2", [("b", .int 2)])] := by
  refine ⟨?_, ?_, ?_, by rfl⟩
  · intro c pd cur line t hdata
    have h0 : (pyStrip line).data.isEmpty = false := by rw [hdata]; rfl
    have h1 : pyStartsWith "#" (pyStrip line) = false := by
      unfold pyStartsWith; rw [hdata]; rfl
    have h2 : pyStartsWith "def " (pyStrip line) = true := by
      unfold pyStartsWith; rw [hdata]; rfl
    constructor
    · intro c2 hok
      simp [processLine, h0, h1, h2, hok]
    · intro e herr
      simp [processLine, h0, h1, h2, herr]
  · intro c n v
    exact lookup_update_self c n v
  · intro c n k v hk
    exact lookup_update_ne c n k v hk

/-- C7 witness: the declaration-line frame part applied to a concrete
redeclaration with a nonempty document and an open block, and the table
overwrite part at concrete keys. -/
theorem C7_witness :
    processLine [("x", .int 1)] [("dict1", [("a", .int 1)])] (some []) "def x := 2" =
      .ok ([("x", .int 2)], [("dict1", [("a", .int 1)])], some []) := by
  have h := (C7_constant_resolved_by_value.1 [("x", .int 1)] [("dict1", [("a", .int 1)])]
    (some []) "def x := 2" "x := 2".data (by rfl)).1 [("x", .int 2)] (by rfl)
  exact h

/-- C1 counterexample: an expression of the chr form whose argument is
not an integer literal does not fail with the parser SyntaxError kind:
the int conversion inside the chr branch raises `ValueError`, so not
every evaluator failure is the single structural-or-syntax kind. -/
theorem C1_counterexample :
    evaluateExpression [] "chr(abc)" =
      .error (.valueError "invalid literal for int() with base 10: abc") ∧
    evaluateExpression [] "chr(abc)" ≠
      .error (.syntaxError "Invalid expression: chr(abc)") := by
  constructor
  · decide
  · decide

/-- C1 amended: an expression matching none of the grammar forms and not
even of the textual chr shape fails with the SyntaxError of the final
fallthrough, message Invalid expression; but an expression of the chr
shape whose argument is not an integer literal fails with `ValueError`
instead, so the failures of the evaluator are not all of the single
syntax kind. -/
theorem C1_amended_invalid_expression :
    (∀ (c : Consts) (expr : String),
      pyIsDigit expr = false →
      (pyStartsWith "chr(" expr && pyEndsWith ")" expr) = false →
      matchBinary expr.data = none →
      matchUnary expr.data = none →
      evaluateExpression c expr = .error (.syntaxError ("Invalid expression: " ++ expr))) ∧
    (∀ (c : Consts) (expr : String),
      pyIsDigit expr = false →
      (pyStartsWith "chr(" expr && pyEndsWith ")" expr) = true →
      pyIntOfString (String.mk ((expr.data.drop 4).dropLast)) = none →
      evaluateExpression c expr =
        .error (.valueError ("invalid literal for int() with base 10: " ++
          String.mk ((expr.data.drop 4).dropLast)))) := by
  constructor
  · intro c expr h1 h2 h3 h4
    simp only [evaluateExpression, evalExpr, h1, h2, h3, h4, Bool.false_eq_true, if_false]
  · intro c expr h1 h2 h3
    simp only [evaluateExpression, evalExpr, h1, h2, h3, Bool.false_eq_true, if_false, if_true]

/-- C1 witness: both parts of `C1_amended_invalid_expression` applied to
concrete expressions. -/
theorem C1_witness :
    evaluateExpression [] "nonsense" = .error (.syntaxError "Invalid expression: nonsense") ∧
    evaluateExpression [] "chr(xy)" =
      .error (.valueError "invalid literal for int() with base 10: xy") := by
  constructor
  · exact C1_amended_invalid_expression.1 [] "nonsense" (by rfl) (by rfl) (by rfl) (by rfl)
  · exact C1_amended_invalid_expression.2 [] "chr(xy)" (by rfl) (by rfl) (by rfl)

/-- C2: in the unary branch of the evaluator, with inner value x, the
plus and star operators return x unchanged, minus returns the negation,
and slash returns the reciprocal one-over-x; concretely the unary slash
of 2 gives one half, unary star of 5 gives 5, unary minus of 5 gives
minus 5. -/
theorem C2_unary_operator_semantics :
    (∀ (n : Nat) (c : Consts) (expr inner : String) (op : Char) (x : PyVal),
      pyIsDigit expr = false →
      (pyStartsWith "chr(" expr && pyEndsWith ")" expr) = false →
      matchBinary expr.data = none →
      matchUnary expr.data = some (op, inner) →
      evalExpr n c inner = .ok x →
      ((op = '+' → evalExpr (n + 1) c expr = .ok x) ∧
       (op = '*' → evalExpr (n + 1) c expr = .ok x) ∧
       (∀ i : Int, op = '-' → x = .int i → evalExpr (n + 1) c expr = .ok (.int (-i))) ∧
       (∀ q : Rat, op = '-' → x = .float q → evalExpr (n + 1) c expr = .ok (.float (-q))) ∧
       (∀ i : Int, op = '/' → x = .int i → i ≠ 0 →
         evalExpr (n + 1) c expr = .ok (.float ((1 : Rat) / (i : Rat)))) ∧
       (∀ q : Rat, op = '/' → x = .float q → q ≠ 0 →
         evalExpr (n + 1) c expr = .ok (.float ((1 : Rat) / q))))) ∧
    evaluateExpression [] "#(/ 2)" = .ok (.float ((1 : Rat) / 2)) ∧
    evaluateExpression [] "#(* 5)" = .ok (.int 5) ∧
    evaluateExpression [] "#(- 5)" = .ok (.int (-5)) := by
  have hhalf : ((1 : Rat) / 2) = Rat.divInt 1 2 := by
    rw [Rat.divInt_eq_div]
    norm_num
  refine ⟨?_, by rw [hhalf]; decide, by decide, by decide⟩
  intro n c expr inner op x h1 h2 h3 h4 h5
  have hred : evalExpr (n + 1) c expr = applyUnOp op x := by
    simp only [evalExpr, h1, h2, h3, h4, h5, Bool.false_eq_true, if_false]
  refine ⟨?_, ?_, ?_, ?_, ?_, ?_⟩
  · intro hop; subst hop; rw [hred]; rfl
  · intro hop; subst hop; rw [hred]; rfl
  · intro i hop hx; subst hop; subst hx; rw [hred]; rfl
  · intro q hop hx; subst hop; subst hx; rw [hred]; rfl
  · intro i hop hx hi
    subst hop; subst hx
    rw [hred, show applyUnOp '/' (PyVal.int i) = pyDiv (.int 1) (.int i) from rfl]
    simp only [pyDiv, if_neg hi, qDiv_eq, Int.cast_one]
  · intro q hop hx hq
    subst hop; subst hx
    rw [hred, show applyUnOp '/' (PyVal.float q) = pyDiv (.int 1) (.float q) from rfl]
    simp only [pyDiv, if_neg hq, qDiv_eq, Int.cast_one]

/-- C2 witness: the general unary part applied at a concrete input for
each operator. -/
theorem C2_witness :
    evalExpr 2 [] "#(+ 7)" = .ok (.int 7) ∧
    evalExpr 2 [] "#(- 7)" = .ok (.int (-7)) ∧
    evalExpr 2 [] "#(/ 4)" = .ok (.float ((1 : Rat) / (4 : Int))) := by
  refine ⟨?_, ?_, ?_⟩
  · exact (C2_unary_operator_semantics.1 1 [] "#(+ 7)" "7" '+' (.int 7)
      (by rfl) (by rfl) (by rfl) (by rfl) (by rfl)).1 rfl
  · exact (C2_unary_operator_semantics.1 1 [] "#(- 7)" "7" '-' (.int 7)
      (by rfl) (by rfl) (by rfl) (by rfl) (by rfl)).2.2.1 7 rfl rfl
  · exact (C2_unary_operator_semantics.1 1 [] "#(/ 4)" "4" '/' (.int 4)
      (by rfl) (by rfl) (by rfl) (by rfl) (by rfl)).2.2.2.2.1 4 rfl rfl (by decide)

theorem digit_ne_nl {ch : Char} (h : isDigitC ch = true) : (ch = '\n') = False := by
  simp only [eq_iff_iff, iff_false]
  intro e
  rw [e] at h
  exact absurd h (by decide)

theorem map_nl_digits :
    ∀ {l : List Char}, (∀ ch ∈ l, isDigitC ch = true) →
      l.map (fun ch => if ch = '\n' then ' ' else ch) = l := by
  intro l
  induction l with
  | nil => intro _; rfl
  | cons c cs ih =>
    intro h
    simp only [List.map_cons, digit_ne_nl (h c (by simp)), if_false]
    rw [ih (fun x hx => h x (by simp [hx]))]

theorem floatShape_head_not_digit (c0 : Char) (cs0 : List Char) (h : isDigitC c0 = false) :
    floatShape (c0 :: cs0) = false := by
  simp only [floatShape]
  rw [takeWhile_cons_neg _ h, dropWhile_cons_neg _ h]
  split
  · rfl
  · rfl

/-- The constant-declaration regex on a well-formed line def-space-name-
space-colon-equals-space-value captures exactly the name and the value. -/
theorem constMatch_decl (c0 d0 : Char) (cs0 ds0 : List Char)
    (hc0 : isIdentStart c0 = true)
    (hword : ∀ ch ∈ c0 :: cs0, isWordC ch = true)
    (hdig : ∀ ch ∈ d0 :: ds0, isDigitC ch = true) :
    constMatch ('d' :: 'e' :: 'f' :: ' ' ::
        ((c0 :: cs0) ++ ' ' :: ':' :: '=' :: ' ' :: (d0 :: ds0))) =
      some (c0 :: cs0, d0 :: ds0) := by
  have hc0ws : isPyWS c0 = false := wordC_not_ws (identStart_word hc0)
  have hd0ws : isPyWS d0 = false := digitC_not_ws (hdig d0 (by simp))
  simp only [constMatch, List.cons_append]
  rw [takeWhile_cons_pos _ (by decide), takeWhile_cons_neg _ hc0ws]
  rw [dropWhile_cons_pos _ (by decide), dropWhile_cons_neg _ hc0ws]
  rw [← List.cons_append, takeWhile_append_all _ hword, takeWhile_cons_neg _ (by decide),
    List.append_nil]
  rw [dropWhile_append_all _ hword, dropWhile_cons_neg _ (by decide)]
  rw [dropWhile_cons_pos _ (by decide), dropWhile_cons_neg _ (by decide)]
  have h1 : List.takeWhile isPyWS (' ' :: d0 :: ds0) = [' '] := by
    rw [takeWhile_cons_pos _ (by decide), takeWhile_cons_neg _ hd0ws]
  have hmin : min 1 (ds0.length + 2 - 1) = 1 := by omega
  simp [hc0, h1, hmin]

/-- C8: for every identifier n and every pure-digit literal v, the
declaration line def-n-colon-equals-v stores the integer value of v under
n in the constant table, and a later reference to n, either as a binary
operand through `_get_value_from_expression` or as a key-value value
token through `_parse_value`, yields that integer value. -/
theorem C8_def_digit_constant_roundtrip (c : Consts) (n v : String) (c0 d0 : Char)
    (cs0 ds0 : List Char)
    (hn : n.data = c0 :: cs0) (hc0 : isIdentStart c0 = true)
    (hword : ∀ ch ∈ n.data, isWordC ch = true)
    (hv : v.data = d0 :: ds0) (hdig : ∀ ch ∈ v.data, isDigitC ch = true) :
    parseConstant c ("def " ++ n ++ " := " ++ v) =
      .ok (updateAssoc c n (.int (digitsToNat v.data))) ∧
    getValueFromExpression (updateAssoc c n (.int (digitsToNat v.data))) n =
      .ok (.int (digitsToNat v.data)) ∧
    parseValue (updateAssoc c n (.int (digitsToNat v.data))) n =
      .ok (.int (digitsToNat v.data)) := by
  have hword2 : ∀ ch ∈ c0 :: cs0, isWordC ch = true := hn ▸ hword
  have hdig2 : ∀ ch ∈ d0 :: ds0, isDigitC ch = true := hv ▸ hdig
  have hd0ws : isPyWS d0 = false := digitC_not_ws (hdig2 d0 (by simp))
  have hnd : String.mk (c0 :: cs0) = n := by rw [← hn]
  have hdata : ("def " ++ n ++ " := " ++ v).data =
      'd' :: 'e' :: 'f' :: ' ' :: ((c0 :: cs0) ++ ' ' :: ':' :: '=' :: ' ' :: (d0 :: ds0)) := by
    rw [String.data_append, String.data_append, String.data_append, hn, hv]
    simp [List.append_assoc]
  have hdigall : (d0 :: ds0).all isDigitC = true := by
    rw [List.all_eq_true]
    exact hdig2
  have hnotdig : pyIsDigit n = false := by
    unfold pyIsDigit
    rw [hn]
    simp [identStart_not_digit hc0]
  have hmap : (d0 :: ds0).map (fun ch => if ch = '\n' then ' ' else ch) = d0 :: ds0 :=
    map_nl_digits hdig2
  have hstrip : pyStrip (String.mk (d0 :: ds0)) = String.mk (d0 :: ds0) := by
    unfold pyStrip
    show String.mk (((List.dropWhile isPyWS (d0 :: ds0)).reverse.dropWhile isPyWS).reverse) = _
    rw [dropWhile_cons_neg _ hd0ws]
    rw [dropWhile_all_neg (fun x hx => digitC_not_ws (hdig2 x (List.mem_reverse.mp hx)))]
    rw [List.reverse_reverse]
  have hisdig : pyIsDigit (String.mk (d0 :: ds0)) = true := by
    unfold pyIsDigit
    show (!(d0 :: ds0).isEmpty && (d0 :: ds0).all isDigitC) = true
    rw [hdigall]
    rfl
  have heval : evaluateExpression c (String.mk (d0 :: ds0)) =
      .ok (.int (digitsToNat (d0 :: ds0))) := by
    unfold evaluateExpression
    show evalExpr ((d0 :: ds0).length + 1) c (String.mk (d0 :: ds0)) = _
    simp only [evalExpr, hisdig, if_true]
  refine ⟨?_, ?_, ?_⟩
  · simp only [parseConstant, hdata, constMatch_decl c0 d0 cs0 ds0 hc0 hword2 hdig2]
    simp only [hmap, hstrip, heval, hnd, hv]
  · unfold getValueFromExpression
    rw [hnotdig]
    simp [lookup_update_self]
  · unfold parseValue
    rw [hnotdig]
    have hfs : floatShape n.data = false := by
      rw [hn]
      exact floatShape_head_not_digit c0 cs0 (identStart_not_digit hc0)
    rw [hfs]
    have hbr : pyStartsWith "[[" n = false := by
      unfold pyStartsWith
      rw [hn]
      have hne : ¬(('[' : Char) = c0) := by
        intro e
        rw [← e] at hc0
        exact absurd hc0 (by decide)
      show (decide ('[' = c0) && listStartsWith ['['] cs0) = false
      rw [decide_eq_false hne]
      rfl
    rw [hbr]
    simp [lookup_update_self]

/-- C8 witness: the declaration theorem applied at the identifier x and
the literal 7. -/
theorem C8_witness :
    parseConstant [] "def x := 7" = .ok [("x", .int 7)] ∧
    getValueFromExpression [("x", .int 7)] "x" = .ok (.int 7) ∧
    parseValue [("x", .int 7)] "x" = .ok (.int 7) := by
  have h := C8_def_digit_constant_roundtrip [] "x" "7" 'x' '7' [] []
    (by rfl) (by decide) (by decide) (by rfl) (by decide)
  exact h

/-- C10 witness: the zero-divisor parts of
`C10_division_by_zero_unguarded` applied at concrete operands. -/
theorem C10_witness :
    pyDiv (.int 1) (.int 0) = .error .zeroDivisionError ∧
    PyErr.zeroDivisionError ≠ .syntaxError "Invalid expression: x" := by
  constructor
  · exact C10_division_by_zero_unguarded.2.2.1 1
  · exact C10_division_by_zero_unguarded.2.2.2.2.2.2 "Invalid expression: x"
